import Mathlib

/-! Verification of the eliottree rendering layer (src/eliottree/render.py):
a shallow embedding of the node model, the value formatter pipeline, the
name renderer, the children extractor and the render drivers, followed by
theorems settling the frozen claims.  The helper module eliottree.format and
the external collaborators (tree pretty printer, termcolor, the Python
string encode primitive) are not part of the staged sources; they are
modelled from the specification where needed, or kept abstract as
parameters. -/

namespace Eliottree

/-! ### Python values and nodes

Values carried by task properties: text, bytes, nested records, numbers and
opaque objects carrying their textual representation.  The render layer
dispatches on these shapes with isinstance checks. -/

inductive Value where
  | vtext : String → Value
  | vbinary : List Nat → Value
  | vdict : List (String × Value) → Value
  | vint : Int → Value
  | vother : String → Value
deriving Repr

/-- Modelled from the spec: a TaskNode (class _TaskNode of eliottree.tree,
not among the staged sources) has a name, an optional three valued success
flag, a mapping of top level properties and a sequence of child TaskNodes
yielded in their original order. -/
inductive TaskNode where
  | mk (name : String) (success : Option Bool)
      (task : List (String × Value)) (children : List TaskNode)

def TaskNode.name : TaskNode → String
  | .mk n _ _ _ => n

def TaskNode.success : TaskNode → Option Bool
  | .mk _ s _ _ => s

def TaskNode.task : TaskNode → List (String × Value)
  | .mk _ _ t _ => t

def TaskNode.children : TaskNode → List TaskNode
  | .mk _ _ _ c => c

/-- The second component of a tuple node: get_name and get_children of
render.py test it with isinstance against dict and text, any other object
being a task node (the root pairs of the driver loop). -/
inductive PairVal where
  | pdict : List (String × Value) → PairVal
  | ptext : String → PairVal
  | pnode : TaskNode → PairVal

/-- The node shapes the tree callbacks dispatch on in render.py: plain text,
a two element tuple, or a task node object. -/
inductive Node where
  | leaf : String → Node
  | pair : String → PairVal → Node
  | task : TaskNode → Node

/-! ### Control character escaping (render.py lines 16 to 25) -/

/-- The translation table _control_equivalents of render.py as a function:
code points below 0x20 map to the control picture block at 0x2400, except
the line feed 0x0a which the table sends to itself; 0x7f maps to 0x2421;
every other character is left alone by str.translate. -/
def _control_equivalents (c : Char) : Char :=
  if c.toNat = 0x0a then c
  else if c.toNat < 0x20 then Char.ofNat (0x2400 + c.toNat)
  else if c.toNat = 0x7f then Char.ofNat 0x2421
  else c

/-- The function _escape_control_characters of render.py on text input:
translate every character through the table. -/
def _escape_control_characters (s : String) : String :=
  String.mk (s.data.map _control_equivalents)

/-- Python objects _escape_control_characters may receive: the source first
coerces with text_type before translating, so non text input is converted
to its textual representation. -/
inductive PyObj where
  | ostr : String → PyObj
  | oint : Int → PyObj

/-- The text_type coercion of the six compatibility layer: identity on
text, decimal representation on integers. -/
def text_type : PyObj → String
  | .ostr s => s
  | .oint n => toString n

/-- The function _escape_control_characters of render.py on an arbitrary
object: coerce with text_type, then translate. -/
def escape_obj (v : PyObj) : String :=
  _escape_control_characters (text_type v)

/-! ### The value formatter pipeline

The stage functions live in the module eliottree.format, which is not among
the staged sources; each is modelled from the specification.  The chain
combinator some and the composition are in render.py itself. -/

/-- Modelled from the spec: bytes.decode(encoding, replace) replaces every
undecodable unit with the replacement character 0xfffd instead of raising.
Implemented for the encodings exercised here: the default utf-8 and
latin-1 as a representative non default encoding (latin-1 maps each byte
to the character of the same code point). -/
def utf8DecodeReplaceAux : Nat → List Nat → List Char
  | 0, _ => []
  | _, [] => []
  | fuel + 1, b :: rest =>
    if b < 0x80 then Char.ofNat b :: utf8DecodeReplaceAux fuel rest
    else if 0xC2 ≤ b && b ≤ 0xDF then
      match rest with
      | c1 :: rest2 =>
        if 0x80 ≤ c1 && c1 ≤ 0xBF then
          Char.ofNat ((b - 0xC0) * 0x40 + (c1 - 0x80)) :: utf8DecodeReplaceAux fuel rest2
        else Char.ofNat 0xFFFD :: utf8DecodeReplaceAux fuel rest
      | [] => [Char.ofNat 0xFFFD]
    else if 0xE0 ≤ b && b ≤ 0xEF then
      match rest with
      | c1 :: c2 :: rest2 =>
        if (0x80 ≤ c1 && c1 ≤ 0xBF) && (0x80 ≤ c2 && c2 ≤ 0xBF)
            && !(b == 0xE0 && c1 < 0xA0) && !(b == 0xED && 0x9F < c1) then
          Char.ofNat ((b - 0xE0) * 0x1000 + (c1 - 0x80) * 0x40 + (c2 - 0x80))
            :: utf8DecodeReplaceAux fuel rest2
        else Char.ofNat 0xFFFD :: utf8DecodeReplaceAux fuel rest
      | _ => Char.ofNat 0xFFFD :: utf8DecodeReplaceAux fuel rest.tail
    else if 0xF0 ≤ b && b ≤ 0xF4 then
      match rest with
      | c1 :: c2 :: c3 :: rest2 =>
        if (0x80 ≤ c1 && c1 ≤ 0xBF) && (0x80 ≤ c2 && c2 ≤ 0xBF)
            && (0x80 ≤ c3 && c3 ≤ 0xBF)
            && !(b == 0xF0 && c1 < 0x90) && !(b == 0xF4 && 0x8F < c1) then
          Char.ofNat ((b - 0xF0) * 0x40000 + (c1 - 0x80) * 0x1000
              + (c2 - 0x80) * 0x40 + (c3 - 0x80))
            :: utf8DecodeReplaceAux fuel rest2
        else Char.ofNat 0xFFFD :: utf8DecodeReplaceAux fuel rest
      | _ => Char.ofNat 0xFFFD :: utf8DecodeReplaceAux fuel rest.tail
    else Char.ofNat 0xFFFD :: utf8DecodeReplaceAux fuel rest

/-- Decoding a byte list as utf-8 with replacement of undecodable units. -/
def utf8DecodeReplace (bs : List Nat) : String :=
  String.mk (utf8DecodeReplaceAux bs.length bs)

/-- Modelled from the spec: the decode step of the binary formatter,
substituting a replacement marker for undecodable bytes rather than
raising. -/
def pyDecodeReplace (encoding : String) (bs : List Nat) : String :=
  if encoding = "latin-1" then String.mk (bs.map Char.ofNat)
  else utf8DecodeReplace bs

/-- Modelled from the spec: format.fields(mapping) of eliottree.format
formats a value with the converter the mapping holds for the key, and
declines with None for every other key. -/
def format_fields (fs : List (String × (Value → String))) (v : Value)
    (k : String) : Option String :=
  (List.lookup k fs).map (fun f => f v)

/-- Modelled from the spec: format.text() of eliottree.format returns text
values unchanged and declines otherwise. -/
def format_text (v : Value) (_k : String) : Option String :=
  match v with
  | Value.vtext s => some s
  | _ => none

/-- Modelled from the spec: format.binary(encoding) of eliottree.format
decodes byte values with the configured encoding, replacing undecodable
bytes, and declines otherwise. -/
def format_binary (encoding : String) (v : Value) (_k : String) : Option String :=
  match v with
  | Value.vbinary bs => some (pyDecodeReplace encoding bs)
  | _ => none

/-- Modelled from the spec: format.anything(encoding) of eliottree.format,
the total never failing textual fallback; it attempts byte decoding on
byte like values and otherwise produces a locale independent textual
representation (the representation of a nested record is a placeholder,
the spec leaves it underspecified). -/
def pyAnyRepr (encoding : String) : Value → String
  | Value.vtext s => s
  | Value.vbinary bs => pyDecodeReplace encoding bs
  | Value.vdict _ => "<record>"
  | Value.vint n => toString n
  | Value.vother r => r

/-- Modelled from the spec: format.anything as the last element of the
chain; it never declines. -/
def format_anything (encoding : String) (v : Value) (_k : String) : String :=
  pyAnyRepr encoding v

/-- The combinator some of render.py lines 35 to 46: first non None result
of applying the arguments to each function. -/
def some_of (fs : List (Value → String → Option String)) (v : Value)
    (k : String) : Option String :=
  match fs with
  | [] => none
  | f :: rest =>
    match f v k with
    | some r => some r
    | none => some_of rest v k

/-- The type dispatch stage of _default_value_formatter: the some chain of
fields, text, binary and anything; the last member is total, so the chain
always produces a result. -/
def type_dispatch (tsFmt : Value → String) (human_readable : Bool)
    (encoding : String) (v : Value) (k : String) : String :=
  (some_of
      [format_fields (if human_readable then [("timestamp", tsFmt)] else []),
        format_text, format_binary encoding] v k).getD
    (format_anything encoding v k)

/-- Modelled from the spec: format.truncate_value of eliottree.format cuts
text longer than the limit to the limit and appends the ellipsis marker;
shorter text passes unchanged. -/
def truncate_value (field_limit : Nat) (value : String) : String :=
  if field_limit < value.data.length then
    String.mk (value.data.take field_limit) ++ "…"
  else value

/-- The function _default_value_formatter of render.py lines 49 to 66,
with the converter table entry for the timestamp field kept as the
parameter tsFmt (format.timestamp is not among the staged sources): the
composition of escaping after truncation (replaced by the identity when
the limit is zero, the falsy test of the source) after the type dispatch
chain. -/
def _default_value_formatter (tsFmt : Value → String) (human_readable : Bool)
    (field_limit : Nat) (encoding : String) (v : Value) (k : String) : String :=
  _escape_control_characters
    ((if field_limit ≠ 0 then truncate_value field_limit else id)
      (type_dispatch tsFmt human_readable encoding v k))

/-- The value formatter a render call builds: render_task_nodes_unicode
calls _default_value_formatter with human_readable and field_limit only
(render.py lines 99 to 101), so the encoding parameter keeps its default
utf-8 whatever encoding the byte mode driver received. -/
def render_format_value (tsFmt : Value → String) (human_readable : Bool)
    (field_limit : Nat) : Value → String → String :=
  _default_value_formatter tsFmt human_readable field_limit "utf-8"

/-! ### The color palette (render.py lines 28 to 32 and 130 to 147) -/

/-- The COLORS class of render.py: a record holding the colorizer the
palette was built with; termcolor.colored receives the text, a color name
and an attribute list. -/
structure COLORS where
  colored : String → String → List String → String

/-- The root role: bold white. -/
def COLORS.root (c : COLORS) (text : String) : String :=
  c.colored text "white" ["bold"]

/-- The success role: green. -/
def COLORS.success (c : COLORS) (text : String) : String :=
  c.colored text "green" []

/-- The failure role: red. -/
def COLORS.failure (c : COLORS) (text : String) : String :=
  c.colored text "red" []

/-- The property role: blue. -/
def COLORS.prop (c : COLORS) (text : String) : String :=
  c.colored text "blue" []

/-- The colorizer _no_color of render.py: returns the text unchanged. -/
def _no_color (text : String) (_color : String) (_attrs : List String) : String :=
  text

/-! ### The name renderer (render.py lines 150 to 176) -/

/-- The closure get_name built by get_name_factory, with the captured
palette as a parameter: text renders as its escaped self; a tuple whose
value is a record renders as the escaped key; a tuple whose value is text
renders as the property colored escaped key, a colon separator, and the
value exactly as supplied; any other tuple is a root pair and renders as
the root colored escaped key; a task node renders as its escaped name,
wrapped by the success or failure role according to its success flag. -/
def get_name (colors : COLORS) : Node → String
  | Node.leaf s => _escape_control_characters s
  | Node.pair k pv =>
    match pv with
    | PairVal.pdict _ => _escape_control_characters k
    | PairVal.ptext v => colors.prop (_escape_control_characters k) ++ ": " ++ v
    | PairVal.pnode _ => colors.root (_escape_control_characters k)
  | Node.task t =>
    match t.success with
    | some true => colors.success (_escape_control_characters t.name)
    | some false => colors.failure (_escape_control_characters t.name)
    | _ => _escape_control_characters t.name

/-! ### The children extractor (render.py lines 179 to 230)

Python sorted() compares the item tuples, which for the unique keys of a
mapping is code point ordering of the key text; the embedding sorts with
an insertion sort under that ordering. -/

/-- Code point ordering of character lists, as Python compares text. -/
def charListLe : List Char → List Char → Bool
  | [], _ => true
  | _ :: _, [] => false
  | a :: as, b :: bs =>
    if a < b then true else if b < a then false else charListLe as bs

/-- Code point ordering of text, as Python compares str values. -/
def strLe (a b : String) : Bool :=
  charListLe a.data b.data

/-- The ordering sorted() applies to the items of a property mapping:
by key text. -/
def keyLe (a b : String × Value) : Prop :=
  strLe a.1 b.1 = true

instance : DecidableRel keyLe := fun a b =>
  if h : strLe a.1 b.1 = true then .isTrue h else .isFalse h

/-- The call sorted(items) of items_children: the items of the mapping in
ascending key order. -/
def py_sorted (items : List (String × Value)) : List (String × Value) :=
  items.insertionSort keyLe

/-- The generator items_children of get_children_factory: walk the sorted
items, drop ignored keys, keep record values as tuples for recursion and
fold every other value through the formatter. -/
def items_children (ignored : List String) (format_value : Value → String → String)
    (items : List (String × Value)) : List Node :=
  (py_sorted items).filterMap fun kv =>
    if kv.1 ∈ ignored then none
    else
      match kv.2 with
      | Value.vdict d => some (Node.pair kv.1 (PairVal.pdict d))
      | v => some (Node.pair kv.1 (PairVal.ptext (format_value v kv.1)))

/-- The closure get_children built by get_children_factory, with the
captured ignored key set and formatter as parameters: text has no
children; a tuple holding a record yields that record through
items_children; a tuple holding text has no children (the value lives in
the name); any other tuple is a root pair and yields its task node; a
task node yields its sorted filtered properties and then its child tasks
in their original order. -/
def get_children (ignored : List String) (format_value : Value → String → String) :
    Node → List Node
  | Node.leaf _ => []
  | Node.pair _ pv =>
    match pv with
    | PairVal.pdict d => items_children ignored format_value d
    | PairVal.ptext _ => []
    | PairVal.pnode t => [Node.task t]
  | Node.task t =>
    items_children ignored format_value t.task ++ t.children.map Node.task

/-! ### The render drivers (render.py lines 69 to 127) -/

/-- The default ignored key set of render.py lines 11 to 13. -/
def DEFAULT_IGNORED_KEYS : List String :=
  ["action_status", "action_type", "task_level", "task_uuid", "message_type"]

/-- The contract of the external tree pretty printer: a root, a name
callback and a children callback produce a text block. -/
def FormatTree : Type :=
  Node → (Node → String) → (Node → List Node) → String

/-- The driver render_task_nodes_unicode of render.py lines 69 to 107,
with the external collaborators as parameters (the tree pretty printer
ftree, the timestamp converter tsFmt, the termcolor colorizer colored_fn)
and the write sink modelled by the returned chunk list: for each root pair
it writes the pretty printed block and then one newline.  The formatter is
built without an encoding argument, so the utf-8 default applies. -/
def render_task_nodes_unicode (ftree : FormatTree) (tsFmt : Value → String)
    (nodes : List (String × TaskNode)) (field_limit : Nat)
    (ignored_task_keys : Option (List String)) (human_readable : Bool)
    (colorize : Bool) (colored_fn : String → String → List String → String) :
    List String :=
  let ignored := ignored_task_keys.getD DEFAULT_IGNORED_KEYS
  let colors : COLORS := ⟨if colorize then colored_fn else _no_color⟩
  let format_value := render_format_value tsFmt human_readable field_limit
  let children_fn := get_children ignored format_value
  let name_fn := get_name colors
  (nodes.map fun root =>
      [ftree (Node.pair root.1 (PairVal.pnode root.2)) name_fn children_fn, "\n"]).flatten

/-- The byte mode driver render_task_nodes of render.py lines 110 to 127:
it delegates to the text driver with a sink that first encodes every
chunk with the configured encoding (the Python encode primitive is kept
abstract as the parameter pyEncode). -/
def render_task_nodes (pyEncode : String → String → List Nat)
    (ftree : FormatTree) (tsFmt : Value → String)
    (nodes : List (String × TaskNode)) (field_limit : Nat)
    (ignored_task_keys : Option (List String)) (human_readable : Bool)
    (encoding : String) (colorize : Bool)
    (colored_fn : String → String → List String → String) : List (List Nat) :=
  (render_task_nodes_unicode ftree tsFmt nodes field_limit ignored_task_keys
      human_readable colorize colored_fn).map
    (pyEncode encoding)

/-- The key a child node carries when it is a property tuple. -/
def node_key : Node → Option String
  | Node.pair k _ => some k
  | _ => none

/-! ### Concrete sample inputs used by witnesses -/

/-- A concrete tree pretty printer instance: the name of the node and the
names of its immediate children. -/
def sample_ftree : FormatTree := fun n name_fn children_fn =>
  name_fn n ++ "|" ++ String.join ((children_fn n).map name_fn)

/-- A concrete timestamp converter instance. -/
def sample_ts (_v : Value) : String := "TS"

/-- The task node of the end to end example of the spec. -/
def sample_node : TaskNode :=
  TaskNode.mk "request" (some true)
    [("method", Value.vtext "GET"),
      ("nested", Value.vdict [("b", Value.vint 1), ("a", Value.vint 2)])]
    []

/-- A concrete root list. -/
def sample_nodes : List (String × TaskNode) := [("uuid1", sample_node)]

/-! ### Ordering lemmas for the key comparison -/

theorem charListLe_total : ∀ as bs : List Char,
    charListLe as bs = true ∨ charListLe bs as = true := by
  intro as
  induction as with
  | nil => intro bs; left; rfl
  | cons a as ih =>
    intro bs
    cases bs with
    | nil => right; rfl
    | cons b bs =>
      by_cases hab : a < b
      · left; simp [charListLe, hab]
      · by_cases hba : b < a
        · right; simp [charListLe, hba]
        · rcases ih bs with h | h
          · left; simp [charListLe, hab, hba, h]
          · right; simp [charListLe, hab, hba, h]

theorem charListLe_trans : ∀ as bs cs : List Char,
    charListLe as bs = true → charListLe bs cs = true → charListLe as cs = true := by
  intro as
  induction as with
  | nil => intro bs cs _ _; rfl
  | cons a as ih =>
    intro bs cs h1 h2
    cases bs with
    | nil => simp [charListLe] at h1
    | cons b bs =>
      cases cs with
      | nil => simp [charListLe] at h2
      | cons c cs =>
        simp only [charListLe] at h1 h2 ⊢
        rcases lt_trichotomy a b with hab | hab | hab
        · rcases lt_trichotomy b c with hbc | hbc | hbc
          · simp [lt_trans hab hbc]
          · subst hbc; simp [hab]
          · rw [if_neg (lt_asymm hbc), if_pos hbc] at h2; simp at h2
        · subst hab
          rw [if_neg (lt_irrefl a), if_neg (lt_irrefl a)] at h1
          rcases lt_trichotomy a c with hac | hac | hac
          · simp [hac]
          · subst hac
            rw [if_neg (lt_irrefl a), if_neg (lt_irrefl a)] at h2 ⊢
            exact ih bs cs h1 h2
          · rw [if_neg (lt_asymm hac), if_pos hac] at h2; simp at h2
        · rw [if_neg (lt_asymm hab), if_pos hab] at h1; simp at h1

theorem charListLe_antisymm : ∀ as bs : List Char,
    charListLe as bs = true → charListLe bs as = true → as = bs := by
  intro as
  induction as with
  | nil =>
    intro bs _ h2
    cases bs with
    | nil => rfl
    | cons b bs => simp [charListLe] at h2
  | cons a as ih =>
    intro bs h1 h2
    cases bs with
    | nil => simp [charListLe] at h1
    | cons b bs =>
      simp only [charListLe] at h1 h2
      rcases lt_trichotomy a b with hab | hab | hab
      · rw [if_neg (lt_asymm hab), if_pos hab] at h2; simp at h2
      · subst hab
        rw [if_neg (lt_irrefl a), if_neg (lt_irrefl a)] at h1
        rw [if_neg (lt_irrefl a), if_neg (lt_irrefl a)] at h2
        rw [ih bs h1 h2]
      · rw [if_neg (lt_asymm hab), if_pos hab] at h1; simp at h1

theorem strLe_total (a b : String) : strLe a b = true ∨ strLe b a = true :=
  charListLe_total a.data b.data

theorem strLe_trans {a b c : String} (h1 : strLe a b = true) (h2 : strLe b c = true) :
    strLe a c = true :=
  charListLe_trans a.data b.data c.data h1 h2

theorem strLe_antisymm {a b : String} (h1 : strLe a b = true) (h2 : strLe b a = true) :
    a = b :=
  String.ext (charListLe_antisymm a.data b.data h1 h2)

theorem sorted_py_sorted (items : List (String × Value)) :
    List.Pairwise keyLe (py_sorted items) :=
  @List.sorted_insertionSort _ keyLe _ ⟨fun a b => strLe_total a.1 b.1⟩
    ⟨fun _ _ _ h1 h2 => strLe_trans h1 h2⟩ items

theorem mem_py_sorted {kv : String × Value} {items : List (String × Value)} :
    kv ∈ py_sorted items ↔ kv ∈ items :=
  (List.perm_insertionSort keyLe items).mem_iff

/-- In a list of keys sorted under the code point ordering, a strictly
smaller key only occurs at an earlier position. -/
theorem sorted_strict_position (l : List String)
    (hs : List.Pairwise (fun a b => strLe a b = true) l)
    (i j : Nat) (hi : i < l.length) (hj : j < l.length)
    (hlt : strLe (l.get ⟨i, hi⟩) (l.get ⟨j, hj⟩) = true)
    (hne : l.get ⟨i, hi⟩ ≠ l.get ⟨j, hj⟩) : i < j := by
  by_contra hij
  rcases Nat.lt_or_ge j i with hji | hji
  · have hrel := List.Sorted.rel_get_of_lt hs (a := ⟨j, hj⟩) (b := ⟨i, hi⟩)
      (Fin.mk_lt_mk.mpr hji)
    exact hne (strLe_antisymm hlt hrel)
  · have : i = j := le_antisymm hji (le_of_not_lt hij)
    subst this
    exact hne rfl

/-- The keys of the property children: the keys of the sorted items that
survive the ignored key filter, in order. -/
theorem items_children_keys (ignored : List String) (fv : Value → String → String)
    (items : List (String × Value)) :
    (items_children ignored fv items).filterMap node_key
      = ((py_sorted items).filter (fun kv => decide (kv.1 ∉ ignored))).map Prod.fst := by
  unfold items_children
  generalize py_sorted items = l
  induction l with
  | nil => rfl
  | cons kv l ih =>
    obtain ⟨k, v⟩ := kv
    by_cases hmem : k ∈ ignored
    · simpa [List.filterMap_cons, List.filter_cons, hmem] using ih
    · cases v <;>
        simpa [List.filterMap_cons, List.filter_cons, hmem, node_key] using ih

/-! ### The claims -/

/-- C3: _escape_control_characters maps every character with code point
below 0x20 except line feed to the control picture glyph at 0x2400 plus
that code point, keeps line feed, maps delete 0x7f to 0x2421, leaves every
other character unchanged, is the identity on the empty string, and
coerces non text input to text before translating. -/
theorem escape_control_characters_spec (s : String) :
    (_escape_control_characters s).data = s.data.map _control_equivalents
    ∧ (∀ c : Char, c.toNat < 0x20 → c ≠ '\n' →
        _control_equivalents c = Char.ofNat (0x2400 + c.toNat))
    ∧ _control_equivalents '\n' = '\n'
    ∧ _control_equivalents (Char.ofNat 0x7f) = Char.ofNat 0x2421
    ∧ (∀ c : Char, ¬ c.toNat < 0x20 → c.toNat ≠ 0x7f → _control_equivalents c = c)
    ∧ _escape_control_characters "" = ""
    ∧ (∀ v : PyObj, escape_obj v = _escape_control_characters (text_type v)) := by
  refine ⟨rfl, ?_, rfl, by decide, ?_, rfl, fun v => rfl⟩
  · intro c h1 h2
    have h3 : c.toNat ≠ 0x0a := by
      intro h
      exact h2 (by rw [← Char.ofNat_toNat c, h])
    simp [_control_equivalents, h3, h1]
  · intro c h1 h2
    have h3 : c.toNat ≠ 0x0a := by omega
    simp [_control_equivalents, h1, h2, h3]

/-- C3 witness: the mapping evaluated at concrete characters: 0x01 becomes
the glyph 0x2401 inside a string, and a non text object is converted to
text first. -/
theorem escape_control_characters_spec_witness :
    (_escape_control_characters (String.mk [Char.ofNat 0x01])).data
      = [Char.ofNat 0x01].map _control_equivalents
    ∧ _control_equivalents (Char.ofNat 0x01) = Char.ofNat 0x2401
    ∧ escape_obj (PyObj.oint (-5)) = _escape_control_characters (text_type (PyObj.oint (-5))) :=
  ⟨(escape_control_characters_spec (String.mk [Char.ofNat 0x01])).1,
    (escape_control_characters_spec "").2.1 (Char.ofNat 0x01) (by decide) (by decide),
    (escape_control_characters_spec "").2.2.2.2.2.2 (PyObj.oint (-5))⟩

/-- C4: the name of a TaskNode is its escaped name wrapped by the success
role (green) when success is true, by the failure role (red) when success
is false, and bare when success is unknown; the result does not depend on
the properties or children of the node (there is no depth input at all);
and with the identity colorizer all three success values give the same
escaped name. -/
theorem get_name_tasknode_success_roles (colors : COLORS) (t : TaskNode) :
    get_name colors (Node.task t)
      = (match t.success with
        | some true => colors.colored (_escape_control_characters t.name) "green" []
        | some false => colors.colored (_escape_control_characters t.name) "red" []
        | _ => _escape_control_characters t.name)
    ∧ (∀ s task children,
        get_name colors (Node.task (TaskNode.mk t.name s task children))
          = get_name colors (Node.task (TaskNode.mk t.name s [] [])))
    ∧ (∀ s task children,
        get_name ⟨_no_color⟩ (Node.task (TaskNode.mk t.name s task children))
          = _escape_control_characters t.name) := by
  refine ⟨?_, ?_, ?_⟩
  · rcases t with ⟨n, s, task, children⟩
    cases s with
    | none => rfl
    | some b => cases b <;> rfl
  · intro s task children
    cases s with
    | none => rfl
    | some b => cases b <;> rfl
  · intro s task children
    cases s with
    | none => rfl
    | some b => cases b <;> rfl

/-- C7: a Property node holding preformatted scalar text renders as the
property colored (blue) escaped key, a colon and a space, then the value
exactly as supplied, not escaped again; a Property holding a nested record
renders as the escaped key alone, uncolored. -/
theorem get_name_property_scalar (colors : COLORS) (k v : String) :
    get_name colors (Node.pair k (PairVal.ptext v))
      = colors.colored (_escape_control_characters k) "blue" [] ++ ": " ++ v
    ∧ (∀ d, get_name colors (Node.pair k (PairVal.pdict d)) = _escape_control_characters k) :=
  ⟨rfl, fun _ => rfl⟩

/-- C10: a top level root pair, a tuple whose second element is neither a
record nor text, renders as the root role (bold white) wrapping the
escaped identifier, and its children are exactly the one element list
holding the task node. -/
theorem root_pair_name_and_children (colors : COLORS) (ignored : List String)
    (fv : Value → String → String) (k : String) (t : TaskNode) :
    get_name colors (Node.pair k (PairVal.pnode t)) = colors.root (_escape_control_characters k)
    ∧ colors.root (_escape_control_characters k)
        = colors.colored (_escape_control_characters k) "white" ["bold"]
    ∧ get_children ignored fv (Node.pair k (PairVal.pnode t)) = [Node.task t] :=
  ⟨rfl, rfl, rfl⟩

/-- C5: with field limit zero the pipeline truncates nothing: its output is
the escaped type dispatch text, whatever its length. -/
theorem formatter_no_truncation_at_limit_zero (tsFmt : Value → String)
    (human_readable : Bool) (encoding : String) (v : Value) (k : String) :
    _default_value_formatter tsFmt human_readable 0 encoding v k
      = _escape_control_characters (type_dispatch tsFmt human_readable encoding v k) := by
  simp [_default_value_formatter]

/-- C6: the pipeline is the fixed composition of escaping after truncation
after type dispatch, so escaping is applied last; in particular, when the
limit bites, escaping is applied to the truncated text with its appended
marker. -/
theorem formatter_stage_order (tsFmt : Value → String) (human_readable : Bool)
    (field_limit : Nat) (encoding : String) (v : Value) (k : String) :
    _default_value_formatter tsFmt human_readable field_limit encoding v k
      = _escape_control_characters
          ((if field_limit ≠ 0 then truncate_value field_limit else id)
            (type_dispatch tsFmt human_readable encoding v k))
    ∧ (field_limit ≠ 0 →
        field_limit < (type_dispatch tsFmt human_readable encoding v k).data.length →
        _default_value_formatter tsFmt human_readable field_limit encoding v k
          = _escape_control_characters
              (String.mk
                  ((type_dispatch tsFmt human_readable encoding v k).data.take field_limit)
                ++ "…")) := by
  refine ⟨rfl, fun h1 h2 => ?_⟩
  have hif : (if field_limit ≠ 0 then truncate_value field_limit else id)
      = truncate_value field_limit := if_pos h1
  rw [_default_value_formatter, hif, truncate_value, if_pos h2]

/-- C6 witness: the composition evaluated on a concrete over long value:
escaping is applied after the marker is appended. -/
theorem formatter_stage_order_witness :
    (0 : Nat) ≠ 0 ∨
      (_default_value_formatter sample_ts false 2 "utf-8" (Value.vtext "abcdef") "k"
        = _escape_control_characters
            (String.mk
                ((type_dispatch sample_ts false "utf-8" (Value.vtext "abcdef") "k").data.take 2)
              ++ "…")) :=
  Or.inr
    ((formatter_stage_order sample_ts false 2 "utf-8" (Value.vtext "abcdef") "k").2
      (by decide) (by decide))

/-- C8: the byte mode driver writes exactly the chunks the text mode driver
writes, each encoded with the configured encoding, and the text chunks are
one pretty printed block per root, each followed by a single newline. -/
theorem render_task_nodes_refines_unicode (pyEncode : String → String → List Nat)
    (ftree : FormatTree) (tsFmt : Value → String) (nodes : List (String × TaskNode))
    (field_limit : Nat) (ignored_task_keys : Option (List String))
    (human_readable : Bool) (encoding : String) (colorize : Bool)
    (colored_fn : String → String → List String → String) :
    render_task_nodes pyEncode ftree tsFmt nodes field_limit ignored_task_keys
        human_readable encoding colorize colored_fn
      = (render_task_nodes_unicode ftree tsFmt nodes field_limit ignored_task_keys
            human_readable colorize colored_fn).map (pyEncode encoding)
    ∧ (∃ name_fn children_fn,
        render_task_nodes_unicode ftree tsFmt nodes field_limit ignored_task_keys
            human_readable colorize colored_fn
          = (nodes.map fun root =>
              [ftree (Node.pair root.1 (PairVal.pnode root.2)) name_fn children_fn,
                "\n"]).flatten) :=
  ⟨rfl, _, _, rfl⟩

/-- C9: rendering is deterministic: two calls whose inputs and
configuration are equal produce equal chunk sequences, in both the text
and the byte mode. -/
theorem render_deterministic (pyEncode : String → String → List Nat)
    (ftree : FormatTree) (tsFmt : Value → String)
    (nodes nodes' : List (String × TaskNode)) (fl fl' : Nat)
    (ign ign' : Option (List String)) (hr hr' : Bool) (enc enc' : String)
    (col col' : Bool) (cf cf' : String → String → List String → String)
    (h1 : nodes = nodes') (h2 : fl = fl') (h3 : ign = ign') (h4 : hr = hr')
    (h5 : enc = enc') (h6 : col = col') (h7 : cf = cf') :
    render_task_nodes_unicode ftree tsFmt nodes fl ign hr col cf
      = render_task_nodes_unicode ftree tsFmt nodes' fl' ign' hr' col' cf'
    ∧ render_task_nodes pyEncode ftree tsFmt nodes fl ign hr enc col cf
      = render_task_nodes pyEncode ftree tsFmt nodes' fl' ign' hr' enc' col' cf' := by
  subst h1 h2 h3 h4 h5 h6 h7
  exact ⟨rfl, rfl⟩

/-- C9 witness: the same concrete render call made twice gives the same
chunks. -/
theorem render_deterministic_witness :
    render_task_nodes_unicode sample_ftree sample_ts sample_nodes 0 none false false _no_color
      = render_task_nodes_unicode sample_ftree sample_ts sample_nodes 0 none false false _no_color
    ∧ render_task_nodes (fun _ s => s.data.map Char.toNat) sample_ftree sample_ts
        sample_nodes 0 none false "utf-8" false _no_color
      = render_task_nodes (fun _ s => s.data.map Char.toNat) sample_ftree sample_ts
        sample_nodes 0 none false "utf-8" false _no_color :=
  render_deterministic (fun _ s => s.data.map Char.toNat) sample_ftree sample_ts
    sample_nodes sample_nodes 0 0 none none false false "utf-8" "utf-8" false false
    _no_color _no_color rfl rfl rfl rfl rfl rfl rfl

/-- C1 counterexample: a render call with the non default encoding latin-1
builds a formatter (render_format_value, the formatter
render_task_nodes_unicode constructs) that does not decode binary values
with latin-1: on the byte 255 it yields the escaped utf-8 replacement
character, not the escaped latin-1 decoding. -/
theorem render_formatter_ignores_call_encoding_cex :
    pyDecodeReplace "latin-1" [255] = "ÿ"
    ∧ render_format_value sample_ts false 0 (Value.vbinary [255]) "k"
        ≠ _escape_control_characters (pyDecodeReplace "latin-1" [255]) := by
  exact ⟨rfl, by decide⟩

/-- C1 amended: the value formatter pipeline a render call builds always
decodes binary values with the fixed default encoding utf-8, substituting
the replacement character for undecodable bytes, whatever encoding the
byte mode driver was called with; the configured encoding only encodes the
output chunks (render_task_nodes_refines_unicode).  The timestamp key is
excepted because the fields stage is consulted first. -/
theorem render_formatter_decodes_with_utf8 (tsFmt : Value → String)
    (human_readable : Bool) (field_limit : Nat) (bs : List Nat) (k : String)
    (h : k ≠ "timestamp") :
    render_format_value tsFmt human_readable field_limit (Value.vbinary bs) k
      = _escape_control_characters
          ((if field_limit ≠ 0 then truncate_value field_limit else id)
            (utf8DecodeReplace bs)) := by
  have hk : (k == "timestamp") = false := beq_eq_false_iff_ne.mpr h
  have hd : type_dispatch tsFmt human_readable "utf-8" (Value.vbinary bs) k
      = utf8DecodeReplace bs := by
    cases human_readable <;>
      simp [type_dispatch, some_of, format_fields, format_text, format_binary,
        pyDecodeReplace, List.lookup, hk]
  rw [render_format_value, _default_value_formatter, hd]

/-- C1 witness for the amended claim: the utf-8 decoding evaluated on the
concrete byte 255. -/
theorem render_formatter_decodes_with_utf8_witness :
    render_format_value sample_ts false 0 (Value.vbinary [255]) "k"
      = _escape_control_characters
          ((if (0 : Nat) ≠ 0 then truncate_value 0 else id) (utf8DecodeReplace [255])) :=
  render_formatter_decodes_with_utf8 sample_ts false 0 [255] "k" (by decide)

/-- C2: the children of a TaskNode are first its property tuples, sorted
by key text with every ignored key omitted and every non ignored key of
the mapping present, then its sub tasks in their original order; within
the property part a strictly smaller key appears strictly earlier, and an
ignored key never appears among the children at all. -/
theorem get_children_tasknode_spec (ignored : List String)
    (fv : Value → String → String) (t : TaskNode) :
    ∃ props : List Node,
      get_children ignored fv (Node.task t) = props ++ t.children.map Node.task
      ∧ (∀ n ∈ props, ∃ k pv, n = Node.pair k pv)
      ∧ (∀ k pv, Node.pair k pv ∈ props → k ∉ ignored ∧ ∃ v, (k, v) ∈ t.task)
      ∧ (∀ kv ∈ t.task, kv.1 ∉ ignored → ∃ pv, Node.pair kv.1 pv ∈ props)
      ∧ List.Pairwise (fun a b => strLe a b = true) (props.filterMap node_key)
      ∧ (∀ i j (hi : i < (props.filterMap node_key).length)
          (hj : j < (props.filterMap node_key).length),
          strLe ((props.filterMap node_key).get ⟨i, hi⟩)
              ((props.filterMap node_key).get ⟨j, hj⟩) = true →
          (props.filterMap node_key).get ⟨i, hi⟩ ≠ (props.filterMap node_key).get ⟨j, hj⟩ →
          i < j)
      ∧ (∀ k pv, Node.pair k pv ∈ get_children ignored fv (Node.task t) → k ∉ ignored) := by
  have hsorted : List.Pairwise (fun a b => strLe a b = true)
      ((items_children ignored fv t.task).filterMap node_key) := by
    rw [items_children_keys]
    exact List.pairwise_map.mpr
      (List.Pairwise.sublist (List.filter_sublist _) (sorted_py_sorted t.task))
  refine ⟨items_children ignored fv t.task, rfl, ?_, ?_, ?_, hsorted, ?_, ?_⟩
  · intro n hn
    obtain ⟨⟨k, v⟩, _, heq⟩ := List.mem_filterMap.mp hn
    by_cases hmem : k ∈ ignored
    · simp [hmem] at heq
    · cases v <;> simp [hmem] at heq <;> exact ⟨k, _, heq.symm⟩
  · intro k pv hmem
    obtain ⟨⟨k', v⟩, hin, heq⟩ := List.mem_filterMap.mp hmem
    by_cases hmem' : k' ∈ ignored
    · simp [hmem'] at heq
    · have hkv : k' = k := by
        cases v <;> simp [hmem'] at heq <;> exact heq.1
      subst hkv
      exact ⟨hmem', v, mem_py_sorted.mp hin⟩
  · intro kv hkv hmem
    obtain ⟨k, v⟩ := kv
    have hin : (k, v) ∈ py_sorted t.task := mem_py_sorted.mpr hkv
    cases v with
    | vdict d =>
      exact ⟨PairVal.pdict d, List.mem_filterMap.mpr ⟨(k, Value.vdict d), hin, by simp [hmem]⟩⟩
    | vtext s =>
      exact ⟨PairVal.ptext (fv (Value.vtext s) k),
        List.mem_filterMap.mpr ⟨(k, Value.vtext s), hin, by simp [hmem]⟩⟩
    | vbinary bs =>
      exact ⟨PairVal.ptext (fv (Value.vbinary bs) k),
        List.mem_filterMap.mpr ⟨(k, Value.vbinary bs), hin, by simp [hmem]⟩⟩
    | vint n =>
      exact ⟨PairVal.ptext (fv (Value.vint n) k),
        List.mem_filterMap.mpr ⟨(k, Value.vint n), hin, by simp [hmem]⟩⟩
    | vother r =>
      exact ⟨PairVal.ptext (fv (Value.vother r) k),
        List.mem_filterMap.mpr ⟨(k, Value.vother r), hin, by simp [hmem]⟩⟩
  · intro i j hi hj hlt hne
    exact sorted_strict_position _ hsorted i j hi hj hlt hne
  · intro k pv hmem
    rcases List.mem_append.mp hmem with hp | hc
    · obtain ⟨⟨k', v⟩, _, heq⟩ := List.mem_filterMap.mp hp
      by_cases hmem' : k' ∈ ignored
      · simp [hmem'] at heq
      · have hkv : k' = k := by
          cases v <;> simp [hmem'] at heq <;> exact heq.1
        subst hkv
        exact hmem'
    · obtain ⟨a, _, heq⟩ := List.mem_map.mp hc
      exact absurd heq (by simp)

end Eliottree
